import Mathlib

/-!
# Verification of the AugMe command-construction layer

Shallow embedding of the command-construction and composition layer of the
AugMe video-augmentation toolkit (`augme/video/...`), together with theorems
checking its natural-language specification against the code.

Conventions of the embedding:
* Python `float` values that the code treats exactly (durations, fractions,
  factors, ratios) are modelled as `ℚ`; pixel counts as `ℕ`/`ℤ`.
* Probing (`get_video_info` / `get_audio_info`) is modelled by passing the
  probed records as explicit arguments: a `VideoInfo` structure for the first
  video stream, and a `Bool` for the truthiness of the audio-info dictionary
  (`True` iff the file has an audio stream).
* Command lists are `List String`.  Numeric interpolation into the argument
  strings goes through `natStr` / `intStr` / `ratStr`; the exact decimal
  rendering of Python floats is abstracted by `ratStr` (an injective function
  of the rational value), which no claim depends on.
-/

namespace AugMe

/-- Python `int(x)` applied to a (non-negative or negative) number:
truncation toward zero. -/
def pyInt (q : ℚ) : ℤ :=
  if 0 ≤ q then ⌊q⌋ else ⌈q⌉

/-- The code's even-rounding idiom `math.ceil(n / 2) * 2` applied to an
integer `n` (in the Python sources `n` is always the result of an `int(...)`
conversion). -/
def evenCeil (n : ℤ) : ℤ :=
  2 * ⌈(n : ℚ) / 2⌉

/-- Python `int(math.sqrt(q))` for a non-negative rational `q`: the floor of
the real square root (the float `math.sqrt` is assumed exact on the inputs
considered, which the claims' concrete instances satisfy). Computed as
`⌊√(a/b)⌋ = ⌊√(a·b)⌋ / b` with natural-number operations. -/
def intSqrtQ (q : ℚ) : ℕ :=
  Nat.sqrt (q.num.toNat * q.den) / q.den

/-- Rendering of a natural number into an argument string (Python `str`). -/
def natStr (n : ℕ) : String := toString n

/-- Rendering of an integer into an argument string (Python `str`). -/
def intStr (n : ℤ) : String := toString n

/-- Rendering of a rational (modelling a Python float) into an argument
string.  Python's decimal float formatting is abstracted: `ratStr` is some
fixed injective rendering of the value.  No claim depends on the digits. -/
def ratStr (q : ℚ) : String := toString q

/-- One hex digit, lower case (used by Python's `"%02x"` formatting). -/
def hexDigit (n : ℕ) : Char :=
  if n < 10 then Char.ofNat (Char.toNat '0' + n)
  else Char.ofNat (Char.toNat 'a' + (n - 10))

/-- Python `"%02x" % n` for a byte value `n ∈ [0, 255]`. -/
def hexByte (n : ℕ) : String :=
  String.mk [hexDigit (n / 16 % 16), hexDigit (n % 16)]

/-- Python `"%02x%02x%02x" % color`, the pad-color encoding. -/
def hexColor (c : ℕ × ℕ × ℕ) : String :=
  hexByte c.1 ++ hexByte c.2.1 ++ hexByte c.2.2

/-- `validate_rgb_color` (helpers/utils.py): a 3-tuple with every channel in
`[0, 255]`.  The tuple arity is carried by the type. -/
def validateRgbColor (c : ℕ × ℕ × ℕ) : Bool :=
  c.1 ≤ 255 && c.2.1 ≤ 255 && c.2.2 ≤ 255

/-- The first video stream's probed record (helpers/ffmpeg.py
`get_video_info`): width, height, duration in seconds, real frame rate
(already normalized to a decimal by `get_video_fps`). -/
structure VideoInfo where
  width : ℕ
  height : ℕ
  duration : ℚ
  rFrameRate : ℚ
deriving DecidableEq, Repr

/-! ## base_augmenter.py -/

/-- `BaseFFMPEGAugmenter.input_fmt`. -/
def inputFmt (videoPath : String) : List String :=
  ["-y", "-i", videoPath]

/-- `BaseFFMPEGAugmenter.output_fmt`. -/
def outputFmt (outputPath : String) : List String :=
  ["-c:v", "libx264", "-preset", "slow", "-crf", "23", "-pix_fmt", "yuv420p",
   outputPath]

/-- `BaseFFMPEGAugmenter.standard_filter_fmt`. -/
def standardFilterFmt (videoPath : String) (filters : List String)
    (outputPath : String) : List String :=
  inputFmt videoPath ++ filters ++ outputFmt outputPath

/-! ## crop.py -/

/-- The constructor arguments of `VideoAugmenterByCrop`. -/
structure CropSpec where
  left : ℚ
  top : ℚ
  right : ℚ
  bottom : ℚ
deriving DecidableEq, Repr

/-- The conjunction of the four `assert`s in `VideoAugmenterByCrop.__init__`. -/
def cropValid (s : CropSpec) : Prop :=
  (0 ≤ s.left ∧ s.left ≤ 1) ∧ (0 ≤ s.top ∧ s.top ≤ 1) ∧
  (s.left < s.right ∧ s.right ≤ 1) ∧ (s.top < s.bottom ∧ s.bottom ≤ 1)

instance (s : CropSpec) : Decidable (cropValid s) := by
  unfold cropValid; infer_instance

/-- `x1 = int(video_info["width"] * self.left)` in `crop.get_command`. -/
def cropX (s : CropSpec) (v : VideoInfo) : ℤ :=
  pyInt ((v.width : ℚ) * s.left)

/-- `y1 = int(video_info["height"] * self.top)` in `crop.get_command`. -/
def cropY (s : CropSpec) (v : VideoInfo) : ℤ :=
  pyInt ((v.height : ℚ) * s.top)

/-- `width = math.ceil(int(video_info["width"] * (right - left)) / 2) * 2`
in `crop.get_command`. -/
def cropWidth (s : CropSpec) (v : VideoInfo) : ℤ :=
  evenCeil (pyInt ((v.width : ℚ) * (s.right - s.left)))

/-- `height = math.ceil(int(video_info["height"] * (bottom - top)) / 2) * 2`
in `crop.get_command`. -/
def cropHeight (s : CropSpec) (v : VideoInfo) : ℤ :=
  evenCeil (pyInt ((v.height : ℚ) * (s.bottom - s.top)))

/-- `VideoAugmenterByCrop.get_command` (probing replaced by the explicit
`VideoInfo` argument). -/
def cropGetCommand (s : CropSpec) (v : VideoInfo)
    (videoPath outputPath : String) : List String :=
  standardFilterFmt videoPath
    ["-vf",
     "crop=w=" ++ intStr (cropWidth s v) ++ ":h=" ++ intStr (cropHeight s v)
       ++ ":x=" ++ intStr (cropX s v) ++ ":y=" ++ intStr (cropY s v),
     "-c:a", "copy"]
    outputPath

/-- The claimed crop box, following the claim's words: output dimensions
equal round-up-to-even of `(right-left)·w` resp. `(bottom-top)·h`, where
round-up-to-even of a rational `q` is the least even integer `≥ q`,
i.e. `2·⌈q/2⌉`. -/
def claimedCropDims (s : CropSpec) (w h : ℕ) : ℤ × ℤ :=
  (2 * ⌈(w : ℚ) * (s.right - s.left) / 2⌉,
   2 * ⌈(h : ℚ) * (s.bottom - s.top) / 2⌉)

/-- The crop box following the amended claim's words: first truncate the
fractional pixel count to an integer (Python `int`), then round up to even. -/
def amendedCropDims (s : CropSpec) (w h : ℕ) : ℤ × ℤ :=
  (2 * ⌈(⌊(w : ℚ) * (s.right - s.left)⌋ : ℚ) / 2⌉,
   2 * ⌈(⌊(h : ℚ) * (s.bottom - s.top)⌋ : ℚ) / 2⌉)

/-! ## Audio-handling branches of the multi-input augmenters

Each of `hstack.py`, `vstack.py`, `overlay.py` and `blend.py` contains the
same three-way `if/elif/else` computing `audio_filter`, `audio_map` and
`audio_codec`; `fstack.py` contains a two-way `if/else`.  The boolean
arguments are the truthiness of the probed audio-info dictionaries. -/

/-- The `audio_filter` / `audio_map` / `audio_codec` triple. -/
structure AudioArgs where
  filter : String
  map : List String
  codec : List String
deriving DecidableEq, Repr

/-- The two-input `amerge` filter string shared by hstack/vstack/overlay/blend. -/
def amergeFilter2 : String :=
  ";[0:a:0][1:a:0]amerge=inputs=2,pan=stereo|c0<c0+c2|c1<c1+c3[a]"

/-- The four-input `amerge` filter string of fstack. -/
def amergeFilter4 : String :=
  ";[0:a:0][1:a:0][2:a:0][3:a:0]amerge=inputs=4,pan=stereo|c0<c0+c2+c4+c6|c1<c1+c3+c5+c7[a]"

/-- The re-encoding audio codec arguments of the merge branch. -/
def aacCodecArgs : List String :=
  ["-c:a", "aac", "-r:a", "44100", "-b:a", "128k", "-ac", "2"]

/-- Lines 56-70 of `hstack.py`: the audio branch of
`VideoAugmenterByHStack.get_command`. -/
def hstackAudioArgs (mergeAudio audioInfo secondAudioInfo : Bool) : AudioArgs :=
  if mergeAudio && audioInfo && secondAudioInfo then
    ⟨amergeFilter2, ["-map", "[a]"], aacCodecArgs⟩
  else if mergeAudio && secondAudioInfo then
    ⟨"", ["-map", "1:a"], ["-c:a", "copy"]⟩
  else
    ⟨"", ["-map", "0:a?"], ["-c:a", "copy"]⟩

/-- Lines 57-71 of `vstack.py`: the audio branch of
`VideoAugmenterByVStack.get_command` (same shape as hstack's). -/
def vstackAudioArgs (mergeAudio audioInfo secondAudioInfo : Bool) : AudioArgs :=
  if mergeAudio && audioInfo && secondAudioInfo then
    ⟨amergeFilter2, ["-map", "[a]"], aacCodecArgs⟩
  else if mergeAudio && secondAudioInfo then
    ⟨"", ["-map", "1:a"], ["-c:a", "copy"]⟩
  else
    ⟨"", ["-map", "0:a?"], ["-c:a", "copy"]⟩

/-- Lines 42-56 of `overlay.py`: the audio branch of
`VideoAugmenterByOverlay.get_command`. -/
def overlayAudioArgs (mergeAudio audioInfo overlayAudioInfo : Bool) : AudioArgs :=
  if mergeAudio && audioInfo && overlayAudioInfo then
    ⟨amergeFilter2, ["-map", "[a]"], aacCodecArgs⟩
  else if mergeAudio && overlayAudioInfo then
    ⟨"", ["-map", "1:a"], ["-c:a", "copy"]⟩
  else
    ⟨"", ["-map", "0:a?"], ["-c:a", "copy"]⟩

/-- Lines 40-54 of `blend.py`: the audio branch of
`VideoAugmenterByBlending.get_command`. -/
def blendAudioArgs (mergeAudio audioInfo overlayAudioInfo : Bool) : AudioArgs :=
  if mergeAudio && audioInfo && overlayAudioInfo then
    ⟨amergeFilter2, ["-map", "[a]"], aacCodecArgs⟩
  else if mergeAudio && overlayAudioInfo then
    ⟨"", ["-map", "1:a"], ["-c:a", "copy"]⟩
  else
    ⟨"", ["-map", "0:a?"], ["-c:a", "copy"]⟩

/-- Lines 60-72 of `fstack.py`: the audio branch of
`VideoAugmenterByFStack.get_command`.  Unlike the two-input operations it
has only two branches: merge-all-four, or optionally map the primary. -/
def fstackAudioArgs (mergeAudio audioInfo a1 a2 a3 : Bool) : AudioArgs :=
  if mergeAudio && audioInfo && a1 && a2 && a3 then
    ⟨amergeFilter4, ["-map", "[a]"], aacCodecArgs⟩
  else
    ⟨"", ["-map", "0:a?"], ["-c:a", "copy"]⟩

/-- The audio `-map` arguments that the claim's wording prescribes for a
two-input composition, as a function of
`(primary_has_audio, secondary_has_audio, merge_requested)`:
merge if both carry audio and merging was requested; else, if only one side
has usable audio, map that stream directly; else map the primary's audio
optionally. -/
def claimedAudioMap (mergeAudio audioInfo secondAudioInfo : Bool) : List String :=
  if audioInfo && secondAudioInfo && mergeAudio then
    ["-map", "[a]"]
  else if audioInfo != secondAudioInfo then
    (if audioInfo then ["-map", "0:a"] else ["-map", "1:a"])
  else
    ["-map", "0:a?"]

/-! ## hstack.py -/

/-- The constructor state of `VideoAugmenterByHStack` (the RGB color is
already encoded by `"%02x%02x%02x"` into `hexColor`, as in `__init__`). -/
structure HStackSpec where
  secondVideoPath : String
  mergeAudio : Bool
  targetGrid : ℕ
  preserveAspectRatio : Bool
  padSecondVideo : Bool
  hexColorStr : String
  maxWidth : ℕ
deriving DecidableEq, Repr

/-- `n_loops = ceil(duration / second_video_info['duration'])`. -/
def stackNLoops (duration secondDuration : ℚ) : ℤ :=
  ⌈duration / secondDuration⌉

/-- The `stack_order` choice of hstack/vstack (`if self.target_grid:`). -/
def stackOrder (targetGrid : ℕ) : String :=
  if targetGrid ≠ 0 then "[vpad][0:v:0]" else "[0:v:0][vpad]"

/-- The `pad_filter` string of `hstack.get_command` (lines 82-88). -/
def hstackPadFilter (s : HStackSpec) (v sv : VideoInfo) : String :=
  if s.padSecondVideo
      && decide ((v.width : ℚ) < (v.height : ℚ) / (sv.height : ℚ) * (sv.width : ℚ)) then
    "[1v]scale=w=" ++ natStr v.width ++ ":h=-1[1scale];"
      ++ "[1scale]pad=w=" ++ natStr v.width ++ ":h=" ++ natStr v.height
      ++ ":x=(ow-iw)/2:y=(oh-ih)/2:color=" ++ s.hexColorStr ++ "[vpad];"
  else if s.padSecondVideo then
    "[1v]pad=w=" ++ natStr v.width ++ ":h=" ++ natStr v.height
      ++ ":x=(ow-iw)/2:y=(oh-ih)/2:color=" ++ s.hexColorStr ++ "[vpad];"
  else
    "[1v]null[vpad];"

/-- `VideoAugmenterByHStack.get_command` (probed records passed
explicitly: `v`/`audioInfo` for the primary, `sv`/`secondAudioInfo` for the
second video). -/
def hstackGetCommand (s : HStackSpec) (v : VideoInfo) (audioInfo : Bool)
    (sv : VideoInfo) (secondAudioInfo : Bool)
    (videoPath outputPath : String) : List String :=
  let nLoops := stackNLoops v.duration sv.duration
  let audio := hstackAudioArgs s.mergeAudio audioInfo secondAudioInfo
  let scaleWidth := if s.preserveAspectRatio then "-1" else natStr v.width
  let filters :=
    ["-stream_loop", intStr nLoops,
     "-i", s.secondVideoPath,
     "-t", ratStr v.duration,
     "-filter_complex",
     "[1:v:0]scale=w=" ++ scaleWidth ++ ":h=" ++ natStr v.height ++ "[1v];"
       ++ hstackPadFilter s v sv
       ++ stackOrder s.targetGrid ++ "hstack=inputs=2[hstack];"
       ++ "[hstack]scale=w='min(iw," ++ natStr s.maxWidth
       ++ ")':h=-1,setsar=ratio=1:1[vscale];"
       ++ "[vscale]pad=w=ceil(iw/2)*2:h=ceil(ih/2)*2[v]"
       ++ audio.filter,
     "-map", "[v]"]
    ++ audio.map
    ++ ["-fps_mode", "cfr", "-r", ratStr v.rFrameRate]
    ++ audio.codec
  standardFilterFmt videoPath filters outputPath

/-! ## vstack.py -/

/-- The constructor state of `VideoAugmenterByVStack`. -/
structure VStackSpec where
  secondVideoPath : String
  mergeAudio : Bool
  targetGrid : ℕ
  preserveAspectRatio : Bool
  padSecondVideo : Bool
  hexColorStr : String
  maxHeight : ℕ
deriving DecidableEq, Repr

/-- The `pad_filter` string of `vstack.get_command` (lines 83-89). -/
def vstackPadFilter (s : VStackSpec) (v sv : VideoInfo) : String :=
  if s.padSecondVideo
      && decide ((v.height : ℚ) < (v.width : ℚ) / (sv.width : ℚ) * (sv.height : ℚ)) then
    "[1v]scale=w=-1:h=" ++ natStr v.height ++ "[1scale];"
      ++ "[1scale]pad=w=" ++ natStr v.width ++ ":h=" ++ natStr v.height
      ++ ":x=(ow-iw)/2:y=(oh-ih)/2:color=" ++ s.hexColorStr ++ "[vpad];"
  else if s.padSecondVideo then
    "[1v]pad=w=" ++ natStr v.width ++ ":h=" ++ natStr v.height
      ++ ":x=(ow-iw)/2:y=(oh-ih)/2:color=" ++ s.hexColorStr ++ "[vpad];"
  else
    "[1v]null[vpad];"

/-- `VideoAugmenterByVStack.get_command`. -/
def vstackGetCommand (s : VStackSpec) (v : VideoInfo) (audioInfo : Bool)
    (sv : VideoInfo) (secondAudioInfo : Bool)
    (videoPath outputPath : String) : List String :=
  let nLoops := stackNLoops v.duration sv.duration
  let audio := vstackAudioArgs s.mergeAudio audioInfo secondAudioInfo
  let scaleHeight := if s.preserveAspectRatio then "-1" else natStr v.height
  let filters :=
    ["-stream_loop", intStr nLoops,
     "-i", s.secondVideoPath,
     "-t", ratStr v.duration,
     "-filter_complex",
     "[1:v:0]scale=w=" ++ natStr v.width ++ ":h=" ++ scaleHeight ++ "[1v];"
       ++ vstackPadFilter s v sv
       ++ stackOrder s.targetGrid ++ "vstack=inputs=2[vstack];"
       ++ "[vstack]scale=w=-1:h='min(ih," ++ natStr s.maxHeight
       ++ ")',setsar=ratio=1:1[vscale];"
       ++ "[vscale]pad=w=ceil(iw/2)*2:h=ceil(ih/2)*2[v]"
       ++ audio.filter,
     "-map", "[v]"]
    ++ audio.map
    ++ ["-fps_mode", "cfr", "-r", ratStr v.rFrameRate]
    ++ audio.codec
  standardFilterFmt videoPath filters outputPath

/-! ## fstack.py -/

/-- The constructor state of `VideoAugmenterByFStack` (paths of the
second/third/forth video, as the `video_paths` list). -/
structure FStackSpec where
  videoPaths : List String
  mergeAudio : Bool
  targetGrid : ℕ
  preserveAspectRatio : Bool
  padVideo : Bool
  hexColorStr : String
  maxHeight : ℕ
deriving DecidableEq, Repr

/-- The `stack_order_h1` / `stack_order_h2` pair of `fstack.get_command`
(lines 74-85); `target_grid ∉ {0,1,2,3}` is ruled out by the constructor's
`assert` and left at a default here. -/
def fstackStackOrder : ℕ → String × String
  | 0 => ("[0:v:0][1pad]", "[2pad][3pad]")
  | 1 => ("[1pad][0:v:0]", "[2pad][3pad]")
  | 2 => ("[1pad][2pad]", "[0:v:0][3pad]")
  | 3 => ("[1pad][2pad]", "[3pad][0:v:0]")
  | _ => ("", "")

/-- The per-secondary-input scale/pad filter of `fstack.get_command`
(lines 93-103), for input index `i+1` with probed info `svi`. -/
def fstackVideoFilter (s : FStackSpec) (v : VideoInfo) (i : ℕ)
    (svi : VideoInfo) : String :=
  let scaleWidth := if s.preserveAspectRatio then "-1" else natStr v.width
  let lbl := natStr (i + 1)
  "[" ++ lbl ++ ":v:0]scale=w=" ++ scaleWidth ++ ":h=" ++ natStr v.height
    ++ "[" ++ lbl ++ "v];"
    ++ (if s.padVideo
          && decide ((v.width : ℚ) < (v.height : ℚ) / (svi.height : ℚ) * (svi.width : ℚ)) then
          "[" ++ lbl ++ "v]scale=w=" ++ natStr v.width ++ ":h=-1[" ++ lbl ++ "scale];"
            ++ "[" ++ lbl ++ "scale]pad=w=" ++ natStr v.width ++ ":h=" ++ natStr v.height
            ++ ":x=(ow-iw)/2:y=(oh-ih)/2:color=" ++ s.hexColorStr ++ "[" ++ lbl ++ "pad];"
        else if s.padVideo then
          "[" ++ lbl ++ "v]pad=w=" ++ natStr v.width ++ ":h=" ++ natStr v.height
            ++ ":x=(ow-iw)/2:y=(oh-ih)/2:color=" ++ s.hexColorStr ++ "[" ++ lbl ++ "pad];"
        else
          "[" ++ lbl ++ "v]null[" ++ lbl ++ "pad];")

/-- The per-secondary-input `-stream_loop`, `-i`, `-t` declarations of
`fstack.get_command` (lines 106-114): for every secondary input, the loop
count followed by the input and the time-truncation to the primary's
duration. -/
def fstackInputDecls (v : VideoInfo) (paths : List String)
    (infos : List VideoInfo) : List String :=
  (paths.zip infos).flatMap fun (p, svi) =>
    ["-stream_loop", intStr (stackNLoops v.duration svi.duration),
     "-i", p,
     "-t", ratStr v.duration]

/-- `VideoAugmenterByFStack.get_command`; `svs` are the probed video infos
of the three secondary inputs and `audios` the truthiness of their audio
infos (in order). -/
def fstackGetCommand (s : FStackSpec) (v : VideoInfo) (audioInfo : Bool)
    (svs : List VideoInfo) (audios : List Bool)
    (videoPath outputPath : String) : List String :=
  let audio := fstackAudioArgs s.mergeAudio audioInfo
    (audios.getD 0 false) (audios.getD 1 false) (audios.getD 2 false)
  let orders := fstackStackOrder s.targetGrid
  let videoFilters := String.join
    (((List.range svs.length).zip svs).map fun (i, svi) => fstackVideoFilter s v i svi)
  let filters :=
    fstackInputDecls v s.videoPaths svs
    ++ ["-filter_complex",
        videoFilters
          ++ orders.1 ++ "hstack=inputs=2[1hstack];"
          ++ orders.2 ++ "hstack=inputs=2[2hstack];"
          ++ "[2hstack][1hstack]scale2ref=w=oh*mdar:h=-1[2hs][1hs];"
          ++ "[1hs][2hs]vstack=inputs=2[vstack];"
          ++ "[vstack]scale=w=-1:h='min(ih," ++ natStr s.maxHeight
          ++ ")',setsar=ratio=1:1[vscale];"
          ++ "[vscale]pad=w=ceil(iw/2)*2:h=ceil(ih/2)*2[v]"
          ++ audio.filter,
        "-map", "[v]"]
    ++ audio.map
    ++ ["-fps_mode", "cfr", "-r", ratStr v.rFrameRate]
    ++ audio.codec
  standardFilterFmt videoPath filters outputPath

/-! ## overlay.py -/

/-- The constructor state of `VideoAugmenterByOverlay`. -/
structure OverlaySpec where
  overlayPath : String
  xFactor : ℚ
  yFactor : ℚ
  mergeAudio : Bool
deriving DecidableEq, Repr

/-- The two `assert`s of `VideoAugmenterByOverlay.__init__`. -/
def overlayValid (s : OverlaySpec) : Prop :=
  (0 ≤ s.xFactor ∧ s.xFactor ≤ 1) ∧ (0 ≤ s.yFactor ∧ s.yFactor ≤ 1)

/-- `VideoAugmenterByOverlay.get_command`. -/
def overlayGetCommand (s : OverlaySpec) (v : VideoInfo) (audioInfo : Bool)
    (overlayAudioInfo : Bool) (videoPath outputPath : String) : List String :=
  let x := pyInt ((v.width : ℚ) * s.xFactor)
  let y := pyInt ((v.height : ℚ) * s.yFactor)
  let audio := overlayAudioArgs s.mergeAudio audioInfo overlayAudioInfo
  let filters :=
    ["-i", s.overlayPath,
     "-t", ratStr v.duration,
     "-filter_complex",
     "[0:v][1:v]overlay=x=" ++ intStr x ++ ":y=" ++ intStr y ++ "[ov];"
       ++ "[ov]pad=width=ceil(iw/2)*2:height=ceil(ih/2)*2[v]"
       ++ audio.filter,
     "-map", "[v]"]
    ++ audio.map
    ++ audio.codec
    ++ ["-fps_mode", "cfr", "-r", ratStr v.rFrameRate]
  standardFilterFmt videoPath filters outputPath

/-! ## blend.py -/

/-- The constructor state of `VideoAugmenterByBlending`. -/
structure BlendSpec where
  overlayPath : String
  opacity : ℚ
  mergeAudio : Bool
deriving DecidableEq, Repr

/-- `VideoAugmenterByBlending.get_command`. -/
def blendGetCommand (s : BlendSpec) (v : VideoInfo) (audioInfo : Bool)
    (ov : VideoInfo) (overlayAudioInfo : Bool)
    (videoPath outputPath : String) : List String :=
  let nLoops := stackNLoops v.duration ov.duration
  let audio := blendAudioArgs s.mergeAudio audioInfo overlayAudioInfo
  let filters :=
    ["-stream_loop", intStr nLoops,
     "-i", s.overlayPath,
     "-t", ratStr v.duration,
     "-filter_complex",
     "[1:v:0]scale=w=" ++ natStr v.width ++ ":h=" ++ natStr v.height ++ "[1v];"
       ++ "[0:v:0][1v]blend=all_mode=overlay:all_opacity=" ++ ratStr s.opacity ++ "[bv];"
       ++ "[bv]pad=width=ceil(iw/2)*2:height=ceil(ih/2)*2[v]"
       ++ audio.filter,
     "-map", "[v]"]
    ++ audio.map
    ++ ["-fps_mode", "cfr", "-r", ratStr v.rFrameRate]
    ++ audio.codec
  standardFilterFmt videoPath filters outputPath

/-! ## aspect_ratio.py -/

/-- `area = int(video_info["width"]) * int(video_info["height"])`. -/
def aspectArea (v : VideoInfo) : ℕ := v.width * v.height

/-- `new_w = ceil(int(sqrt(area * self.aspect_ratio)) / 2) * 2`. -/
def aspectNewW (r : ℚ) (v : VideoInfo) : ℤ :=
  evenCeil (intSqrtQ ((aspectArea v : ℚ) * r))

/-- The `(new_w, new_h)` pair computed by
`VideoAugmenterByAspectRatio.get_command`; `none` models the
`ZeroDivisionError` that `area / new_w` raises when `new_w = 0`. -/
def aspectDims (r : ℚ) (v : VideoInfo) : Option (ℤ × ℤ) :=
  let newW := aspectNewW r v
  if newW = 0 then none
  else some (newW, evenCeil (pyInt ((aspectArea v : ℚ) / (newW : ℚ))))

/-- `VideoAugmenterByAspectRatio.get_command` (`none` when the dimension
computation raises). -/
def aspectRatioGetCommand (r : ℚ) (v : VideoInfo)
    (videoPath outputPath : String) : Option (List String) :=
  (aspectDims r v).map fun (newW, newH) =>
    standardFilterFmt videoPath
      ["-vf",
       "scale=width=" ++ intStr newW ++ ":height=" ++ intStr newH
         ++ ",setsar=ratio=1:1,setdar=ratio=" ++ ratStr r,
       "-c:a", "copy"]
      outputPath

/-- The defining property of the floor of the real square root of `q`:
`IsFloorSqrt q n` holds iff `n = ⌊√q⌋`. -/
def IsFloorSqrt (q : ℚ) (n : ℕ) : Prop :=
  (n : ℚ) ^ 2 ≤ q ∧ q < ((n : ℚ) + 1) ^ 2

/-! ## trim.py -/

/-- The constructor state of `VideoAugmenterByTrim`: the optional `start`
and `end` fields (`stop` stands for the Python attribute `end`, a reserved
word in Lean). -/
structure TrimSpec where
  start : Option ℚ
  stop : Option ℚ
deriving DecidableEq, Repr

/-- The conjunction of the two `assert`s in `VideoAugmenterByTrim.__init__`:
`start is None or start >= 0` and
`end is None or (start is not None and end > start) or end > 0`. -/
def trimValidate (start stop : Option ℚ) : Bool :=
  (start.isNone || decide (0 ≤ start.getD 0))
  && (stop.isNone
      || (start.isSome && decide (start.getD 0 < stop.getD 0))
      || decide (0 < stop.getD 0))

/-- `VideoAugmenterByTrim.get_command`.  The returned `TrimSpec` is the
state of the augmenter object after the call: lines 30-33 of `trim.py`
assign `self.start = 0` and `self.end = video_info["duration"]` when the
fields are `None`. -/
def trimGetCommand (t : TrimSpec) (v : VideoInfo)
    (videoPath outputPath : String) : TrimSpec × List String :=
  let start := t.start.getD 0
  let stop := t.stop.getD v.duration
  let duration := stop - start
  (⟨some start, some stop⟩,
   ["-y",
    "-ss", ratStr start,
    "-i", videoPath,
    "-t", ratStr duration,
    "-vf", "pad=width=ceil(iw/2)*2:height=ceil(ih/2)*2",
    "-c:a", "copy"]
   ++ outputFmt outputPath)

/-! ## pad.py -/

/-- The constructor state of `VideoAugmenterByPadding`. -/
structure PadSpec where
  wFactor : ℚ
  hFactor : ℚ
  hexColorStr : String
deriving DecidableEq, Repr

/-- `VideoAugmenterByPadding.get_command`. -/
def padGetCommand (s : PadSpec) (v : VideoInfo)
    (videoPath outputPath : String) : List String :=
  let left := pyInt ((v.width : ℚ) * s.wFactor)
  let top := pyInt ((v.height : ℚ) * s.hFactor)
  standardFilterFmt videoPath
    ["-vf",
     "pad=width=" ++ intStr (left * 2) ++ "+ceil(iw/2)*2:height="
       ++ intStr (top * 2) ++ "+ceil(ih/2)*2:x=" ++ intStr left
       ++ ":y=" ++ intStr top ++ ":color=" ++ s.hexColorStr,
     "-c:a", "copy"]
    outputPath

/-! ## base_augmenter.py: `add_augmenter`

`add_augmenter` is modelled as the trace of file-system effects it
performs.  `validate_input_and_output_paths` resolves
`output_path = output_path or video_path`; the `CustomNamedTemporaryFile`
context provides a fresh private path `tmpName` and removes it on exit. -/

/-- One file-system effect of an orchestration call. -/
inductive FsOp where
  /-- `shutil.copyfile(src, dst)`. -/
  | copyFile (src dst : String)
  /-- `execute_ffmpeg_cmd(cmd)`: one external-tool invocation. -/
  | execTool (cmd : List String)
  /-- `os.remove(p)` performed by the temp-file context on exit. -/
  | removeFile (p : String)
deriving DecidableEq, Repr

/-- `BaseFFMPEGAugmenter.add_augmenter`, parameterized by the augmenter's
`get_command` and by the fresh temporary path: the effect trace, in order.
When the resolved output path equals the input path, the *input* is copied
to the temporary path and the command is built reading from that copy and
writing to the original path. -/
def addAugmenter (getCommand : String → String → List String)
    (videoPath : String) (outputPath : Option String)
    (tmpName : String) : List FsOp :=
  let outPath := outputPath.getD videoPath
  (if videoPath = outPath then
    [FsOp.copyFile videoPath tmpName,
     FsOp.execTool (getCommand tmpName outPath)]
   else
    [FsOp.execTool (getCommand videoPath outPath)])
  ++ [FsOp.removeFile tmpName]

/-- The behavior the claim ascribes to an in-place `add_augmenter` run: the
tool's command writes its output to the private temporary path, and only
after the invocation is the temporary copied over the source path. -/
def claimedTempSwap (trace : List FsOp) (tmpName finalPath : String) : Prop :=
  ∃ i j, i < j ∧
    (∃ cmd, trace.get? i = some (FsOp.execTool cmd)
      ∧ cmd.getLast? = some tmpName)
    ∧ trace.get? j = some (FsOp.copyFile tmpName finalPath)

/-! ## helpers/ffmpeg.py: `get_video_fps` -/

/-- Splitting a character list at every occurrence of `sep` (Python
`str.split` with a one-character separator; `"".split(sep) = [""]`). -/
def splitOnChar (sep : Char) : List Char → List (List Char)
  | [] => [[]]
  | c :: cs =>
    match splitOnChar sep cs, decide (c = sep) with
    | r, true => [] :: r
    | [], false => [[c]]
    | h :: t, false => (c :: h) :: t

/-- The numeric value of a non-empty all-digit character list. -/
def digitsVal? (cs : List Char) : Option ℕ :=
  if cs ≠ [] && cs.all Char.isDigit then
    some (cs.foldl (fun acc c => 10 * acc + (c.toNat - Char.toNat '0')) 0)
  else none

/-- Python `float(s)` on plain decimal literals: an optional sign, digits,
and an optional fractional part (`none` models the `ValueError` on anything
else; the scientific/inf/nan forms, which cannot occur in frame-rate
strings, are not modelled). -/
def parseFloat (cs : List Char) : Option ℚ :=
  let (sign, body) :=
    match cs with
    | '-' :: rest => ((-1 : ℚ), rest)
    | '+' :: rest => ((1 : ℚ), rest)
    | _ => ((1 : ℚ), cs)
  match splitOnChar '.' body with
  | [intPart] => (digitsVal? intPart).map fun n => sign * (n : ℚ)
  | [intPart, fracPart] =>
    match digitsVal? intPart, digitsVal? fracPart with
    | some a, some b =>
      some (sign * ((a : ℚ) + (b : ℚ) / (10 : ℚ) ^ fracPart.length))
    | _, _ => none
  | _ => none

/-- The body of `get_video_fps` before its `except` handler: `error` is any
raised exception (a `ValueError` from `float`, the unpacking error when the
split does not have exactly two parts, or the `ZeroDivisionError`). -/
def getVideoFpsRaw (s : String) : Except Unit ℚ :=
  if s.data.contains '/' then
    match splitOnChar '/' s.data with
    | [x, y] =>
      match parseFloat x, parseFloat y with
      | some num, some denom =>
        if denom = 0 then Except.error () else Except.ok (num / denom)
      | _, _ => Except.error ()
    | _ => Except.error ()
  else
    match parseFloat s.data with
    | some v => Except.ok v
    | none => Except.error ()

/-- `get_video_fps` (helpers/ffmpeg.py lines 72-81): the `except Exception`
handler turns every raised exception into the return value `0`. -/
def getVideoFps (s : String) : ℚ :=
  match getVideoFpsRaw s with
  | Except.ok v => v
  | Except.error _ => 0

/-! ## functional.py: `concat` -/

/-- One step of the `concat` orchestration helper. -/
inductive ConcatStep where
  /-- `add_silent_audio(path, temp_path)`: synthesize a silent audio track
  for `path` into the temporary copy `temp_path`. -/
  | silentSynth (path tempPath : String)
  /-- The `VideoAugmenterByConcat(...).add_augmenter(...)` call issued on
  the prepared input list. -/
  | concatExec (inputs : List String) (srcIndex : ℕ)
deriving DecidableEq, Repr

/-- The loop of `concat` (functional.py lines 418-426) over the inputs,
given as `(path, has_audio)` pairs: the silent-audio sub-calls issued, and
the `video_paths_with_audio` list.  `fresh k` is the random temporary path
generated at loop iteration `k`. -/
def concatPrepare (fresh : ℕ → String) :
    ℕ → List (String × Bool) → List ConcatStep × List String
  | _, [] => ([], [])
  | k, (p, hasAudio) :: rest =>
    if hasAudio then
      ((concatPrepare fresh (k + 1) rest).1,
       p :: (concatPrepare fresh (k + 1) rest).2)
    else
      (ConcatStep.silentSynth p (fresh k) :: (concatPrepare fresh (k + 1) rest).1,
       fresh k :: (concatPrepare fresh (k + 1) rest).2)

/-- The sub-call trace of `concat` (functional.py lines 418-429): the
silent-audio syntheses in input order, followed by the concat invocation on
`video_paths_with_audio`. -/
def concatTrace (fresh : ℕ → String) (inputs : List (String × Bool))
    (srcIndex : ℕ) : List ConcatStep :=
  let (steps, outs) := concatPrepare fresh 0 inputs
  steps ++ [ConcatStep.concatExec outs srcIndex]

/-! ## functional.py: the hstack / vstack / fstack wrappers -/

/-- One step of the stack wrapper helpers. -/
inductive StackPrepStep where
  /-- The `pad(video_path, temp_path, w_factor=0, h_factor=0)` pre-pass,
  carried as the executed pad command. -/
  | runPad (cmd : List String)
  /-- The stack augmenter's `add_augmenter(primary, output_path)` call. -/
  | runStack (primary : String) (outputPath : Option String)
deriving DecidableEq, Repr

/-- The zero-margin pad spec built by `pad(..., w_factor=0, h_factor=0)`
with the default color `(0, 0, 0)`. -/
def zeroPadSpec : PadSpec :=
  ⟨0, 0, hexColor (0, 0, 0)⟩

/-- The shared preamble of the `hstack` wrapper (functional.py lines
864-876): probe the primary, pre-pad it into `tmpName` when a dimension is
odd, then run the stack augmenter against `temp_path or video_path`. -/
def hstackWrapperTrace (v : VideoInfo) (videoPath : String)
    (tmpName : String) (outputPath : Option String) : List StackPrepStep :=
  if v.width % 2 = 1 ∨ v.height % 2 = 1 then
    [StackPrepStep.runPad (padGetCommand zeroPadSpec v videoPath tmpName),
     StackPrepStep.runStack tmpName outputPath]
  else
    [StackPrepStep.runStack videoPath outputPath]

/-- The same preamble in the `vstack` wrapper (functional.py lines
1652-1664). -/
def vstackWrapperTrace (v : VideoInfo) (videoPath : String)
    (tmpName : String) (outputPath : Option String) : List StackPrepStep :=
  if v.width % 2 = 1 ∨ v.height % 2 = 1 then
    [StackPrepStep.runPad (padGetCommand zeroPadSpec v videoPath tmpName),
     StackPrepStep.runStack tmpName outputPath]
  else
    [StackPrepStep.runStack videoPath outputPath]

/-- The same preamble in the `fstack` wrapper (functional.py lines
694-706). -/
def fstackWrapperTrace (v : VideoInfo) (videoPath : String)
    (tmpName : String) (outputPath : Option String) : List StackPrepStep :=
  if v.width % 2 = 1 ∨ v.height % 2 = 1 then
    [StackPrepStep.runPad (padGetCommand zeroPadSpec v videoPath tmpName),
     StackPrepStep.runStack tmpName outputPath]
  else
    [StackPrepStep.runStack videoPath outputPath]

/-! ## Branch values and claimed predicates used by the theorems -/

/-- The value of the merge branch of a two-input audio `if/elif/else`. -/
def mergeBranchArgs2 : AudioArgs :=
  ⟨amergeFilter2, ["-map", "[a]"], aacCodecArgs⟩

/-- The value of the merge branch of fstack's audio `if/else`. -/
def mergeBranchArgs4 : AudioArgs :=
  ⟨amergeFilter4, ["-map", "[a]"], aacCodecArgs⟩

/-- The value of the `elif` branch: the secondary input's audio stream is
mapped directly, stream-copied. -/
def directSecondaryArgs : AudioArgs :=
  ⟨"", ["-map", "1:a"], ["-c:a", "copy"]⟩

/-- The value of the `else` branch: the primary's audio is mapped
optionally (`0:a?`), stream-copied. -/
def optionalPrimaryArgs : AudioArgs :=
  ⟨"", ["-map", "0:a?"], ["-c:a", "copy"]⟩

/-- Whether `trace` contains a `copyFile tmp out` operation. -/
def hasCopy (tmp out : String) : List FsOp → Bool
  | [] => false
  | FsOp.copyFile a b :: rest =>
    (decide (a = tmp) && decide (b = out)) || hasCopy tmp out rest
  | _ :: rest => hasCopy tmp out rest

/-- The behavior claim C2 ascribes to an in-place run, as a decidable
predicate on the effect trace: some tool invocation writes its output (the
command's final argument) to the private temporary path, and a later
operation copies that temporary over the final output path. -/
def claimedTempSwapB (tmp out : String) : List FsOp → Bool
  | [] => false
  | FsOp.execTool cmd :: rest =>
    (decide (cmd.getLast? = some tmp) && hasCopy tmp out rest)
      || claimedTempSwapB tmp out rest
  | _ :: rest => claimedTempSwapB tmp out rest

/-! ## Helper lemmas -/

/-- The even-rounding idiom computed arithmetically: `evenCeil n = n + n % 2`. -/
theorem evenCeil_eq_add_emod (n : ℤ) : evenCeil n = n + n % 2 := by
  unfold evenCeil
  have h1 : ⌈(n : ℚ) / 2⌉ = -⌊-((n : ℚ) / 2)⌋ := by rw [Int.floor_neg, neg_neg]
  have h2 : (-((n : ℚ) / 2)) = ((-n : ℤ) : ℚ) / ((2 : ℕ) : ℚ) := by push_cast; ring
  rw [h1, h2, Rat.floor_intCast_div_natCast]
  omega

/-- `evenCeil` always produces an even integer. -/
theorem even_evenCeil (n : ℤ) : Even (evenCeil n) :=
  ⟨⌈(n : ℚ) / 2⌉, by rw [evenCeil]; ring⟩

/-- Python `int` truncation agrees with the floor on non-negative values. -/
theorem pyInt_of_nonneg {q : ℚ} (h : 0 ≤ q) : pyInt q = ⌊q⌋ := by
  unfold pyInt; rw [if_pos h]

/-- The floor of a real square root is unique. -/
theorem isFloorSqrt_unique {q : ℚ} {n m : ℕ}
    (hn : IsFloorSqrt q n) (hm : IsFloorSqrt q m) : n = m := by
  rcases hn with ⟨hn1, hn2⟩
  rcases hm with ⟨hm1, hm2⟩
  by_contra hne
  rcases Nat.lt_or_ge n m with h | h
  · have : ((n : ℚ) + 1) ^ 2 ≤ (m : ℚ) ^ 2 := by
      have : (n : ℚ) + 1 ≤ (m : ℚ) := by exact_mod_cast h
      nlinarith [this]
    linarith
  · rcases Nat.lt_or_ge m n with h' | h'
    · have : ((m : ℚ) + 1) ^ 2 ≤ (n : ℚ) ^ 2 := by
        have : (m : ℚ) + 1 ≤ (n : ℚ) := by exact_mod_cast h'
        nlinarith [this]
      linarith
    · exact hne (Nat.le_antisymm h' h)

/-- `intSqrtQ` computes the floor of the real square root of a non-negative
rational. -/
theorem intSqrtQ_isFloorSqrt {q : ℚ} (hq : 0 ≤ q) :
    IsFloorSqrt q (intSqrtQ q) := by
  obtain ⟨a, ha⟩ : ∃ a : ℕ, (a : ℤ) = q.num :=
    ⟨q.num.toNat, Int.toNat_of_nonneg (Rat.num_nonneg.mpr hq)⟩
  have hb : 0 < q.den := q.pos
  have hqab : q = (a : ℚ) / (q.den : ℚ) := by
    have h := (Rat.num_div_den q).symm
    rw [← ha] at h
    push_cast at h
    exact h
  have hsplit : intSqrtQ q = Nat.sqrt (a * q.den) / q.den := by
    unfold intSqrtQ
    rw [← ha]
    simp
  have hbQ : (0 : ℚ) < (q.den : ℚ) := by exact_mod_cast hb
  have h1 : (Nat.sqrt (a * q.den) / q.den) * q.den ≤ Nat.sqrt (a * q.den) :=
    Nat.div_mul_le_self _ _
  have h2 : Nat.sqrt (a * q.den) * Nat.sqrt (a * q.den) ≤ a * q.den := by
    simpa [pow_two] using Nat.sqrt_le' (a * q.den)
  have hlt : Nat.sqrt (a * q.den) < (Nat.sqrt (a * q.den) / q.den + 1) * q.den :=
    (Nat.div_lt_iff_lt_mul hb).mp (Nat.lt_succ_self _)
  have h2' : a * q.den < (Nat.sqrt (a * q.den) + 1) * (Nat.sqrt (a * q.den) + 1) := by
    simpa [pow_two] using Nat.lt_succ_sqrt' (a * q.den)
  constructor
  · -- lower bound: (intSqrtQ q)^2 ≤ q
    have h3 : ((Nat.sqrt (a * q.den) / q.den) * q.den)
        * ((Nat.sqrt (a * q.den) / q.den) * q.den) ≤ a * q.den :=
      le_trans (Nat.mul_le_mul h1 h1) h2
    have h4 : (Nat.sqrt (a * q.den) / q.den) * (Nat.sqrt (a * q.den) / q.den)
        * q.den ≤ a :=
      Nat.le_of_mul_le_mul_right (by nlinarith) hb
    rw [hsplit]
    conv_rhs => rw [hqab]
    rw [le_div_iff₀ hbQ]
    have h5 : (((Nat.sqrt (a * q.den) / q.den) * (Nat.sqrt (a * q.den) / q.den)
        * q.den : ℕ) : ℚ) ≤ ((a : ℕ) : ℚ) := by exact_mod_cast h4
    push_cast at h5
    nlinarith [h5]
  · -- upper bound: q < (intSqrtQ q + 1)^2
    have h3 : a * q.den
        < ((Nat.sqrt (a * q.den) / q.den + 1) * q.den)
          * ((Nat.sqrt (a * q.den) / q.den + 1) * q.den) :=
      lt_of_lt_of_le h2' (Nat.mul_le_mul hlt hlt)
    have h4 : a < (Nat.sqrt (a * q.den) / q.den + 1)
        * (Nat.sqrt (a * q.den) / q.den + 1) * q.den :=
      Nat.lt_of_mul_lt_mul_right (a := q.den) (by nlinarith)
    rw [hsplit]
    conv_lhs => rw [hqab]
    rw [div_lt_iff₀ hbQ]
    have h5 : ((a : ℕ) : ℚ) < (((Nat.sqrt (a * q.den) / q.den + 1)
        * (Nat.sqrt (a * q.den) / q.den + 1) * q.den : ℕ) : ℚ) := by exact_mod_cast h4
    push_cast at h5
    nlinarith [h5]

/-! ## C7: trim validation -/

/-- C7: the claim says construction rejects every trim with both `start`
and `end` given and `end ≤ start`.  The code's own assert message ("End
must be a non-negative value greater than start") states the same intent,
but the `or end > 0` disjunct in `trim.py` line 10 makes the check pass for
any positive `end`: `start=5, end=3` is accepted (the assert only fires
when `end ≤ 0`, as the second conjunct shows for `start=5, end=0`). -/
theorem C7_trim_validation_accepts_end_le_start :
    trimValidate (some 5) (some 3) = true
    ∧ (3 : ℚ) < 5
    ∧ trimValidate (some 5) (some 0) = false := by
  refine ⟨by decide, by norm_num, by decide⟩

/-! ## C6: OperationSpec immutability -/

/-- C6 counterexample: `VideoAugmenterByTrim` with omitted `start`/`end` is
mutated by `get_command` (lines 30-33 of `trim.py` assign `self.start = 0`
and `self.end = video_info["duration"]`), so building a command does not
leave every spec object's fields unchanged. -/
theorem C6_trim_spec_mutates :
    (trimGetCommand ⟨none, none⟩ ⟨1280, 720, 10, 30⟩ "a.mp4" "b.mp4").1
      = ⟨some 0, some 10⟩
    ∧ (trimGetCommand ⟨none, none⟩ ⟨1280, 720, 10, 30⟩ "a.mp4" "b.mp4").1
      ≠ (⟨none, none⟩ : TrimSpec) := by
  exact ⟨rfl, by decide⟩

/-- C6 amended: a trim spec is left unchanged by `get_command` exactly when
both optional fields were provided at construction; otherwise the missing
fields are overwritten with `start = 0` resp. `end = ` the probed duration,
which is what the updated state always equals. -/
theorem C6_trim_spec_unchanged_iff :
    ∀ (t : TrimSpec) (v : VideoInfo) (p o : String),
      (trimGetCommand t v p o).1
        = ⟨some (t.start.getD 0), some (t.stop.getD v.duration)⟩
      ∧ ((trimGetCommand t v p o).1 = t ↔ t.start.isSome ∧ t.stop.isSome) := by
  intro t v p o
  obtain ⟨s, e⟩ := t
  cases s <;> cases e <;>
    simp [trimGetCommand]

/-! ## C1: audio-handling branch selection -/

/-- C1 counterexample: with `merge_requested = False`, no audio on the
primary and audio on the secondary, the claim's middle branch ("only one
side has usable audio: map that stream directly") would map the secondary
(`1:a`), but `hstack.py`'s `elif` also requires `merge_audio`, so the code
falls into the optional-primary branch (`0:a?`) and the secondary's audio
is dropped.  The last conjunct exhibits the emitted `-map` argument inside
the full built command. -/
theorem C1_audio_branch_counterexample :
    (hstackAudioArgs false false true).map = ["-map", "0:a?"]
    ∧ claimedAudioMap false false true = ["-map", "1:a"]
    ∧ (hstackAudioArgs false false true).map ≠ claimedAudioMap false false true
    ∧ (hstackGetCommand ⟨"s.mp4", false, 0, false, false, "000000", 1920⟩
        ⟨1280, 720, 10, 30⟩ false ⟨640, 480, 3, 30⟩ true
        "in.mp4" "out.mp4").get? 14 = some "0:a?" := by
  refine ⟨by decide, by decide, by decide, rfl⟩

/-- C1 amended: for each two-input compositing operation (hstack, vstack,
overlay, blend) exactly one of the three branches fires, but the middle
branch maps the *secondary* stream and fires only when merging was
requested and the primary has no audio (`merge ∧ second ∧ ¬primary`); in
every remaining case — including when only the primary has audio, or when
neither input has audio and merge was requested — the primary's audio is
mapped optionally (`0:a?`) without error.  fstack has only two branches:
merge-all-four, or optional-primary. -/
theorem C1_audio_branch_selection :
    (mergeBranchArgs2 ≠ directSecondaryArgs
      ∧ mergeBranchArgs2 ≠ optionalPrimaryArgs
      ∧ directSecondaryArgs ≠ optionalPrimaryArgs)
    ∧ ∀ m p s : Bool,
      (hstackAudioArgs m p s = mergeBranchArgs2 ↔ (m ∧ p ∧ s))
      ∧ (hstackAudioArgs m p s = directSecondaryArgs ↔ (m ∧ s ∧ ¬ p))
      ∧ (hstackAudioArgs m p s = optionalPrimaryArgs ↔ ¬ (m ∧ s))
      ∧ vstackAudioArgs m p s = hstackAudioArgs m p s
      ∧ overlayAudioArgs m p s = hstackAudioArgs m p s
      ∧ blendAudioArgs m p s = hstackAudioArgs m p s
      ∧ hstackAudioArgs true false false = optionalPrimaryArgs
      ∧ ∀ a2 a3 : Bool,
          (fstackAudioArgs m p s a2 a3 = mergeBranchArgs4
            ↔ (m ∧ p ∧ s ∧ a2 ∧ a3))
          ∧ (fstackAudioArgs m p s a2 a3 = optionalPrimaryArgs
            ↔ ¬ (m ∧ p ∧ s ∧ a2 ∧ a3)) := by
  exact ⟨by decide, by decide⟩

/-! ## C2: in-place overwrite through a temporary path -/

/-- C2 counterexample: an in-place crop run.  `add_augmenter` copies the
*input* aside to the private temporary path *before* invoking the tool, and
the tool's command writes its output directly to the original source path
(its final argument); no tool output is routed through the temporary and no
post-success swap into the source occurs, contrary to the claim (the
claimed write-to-temp-then-swap pattern is absent from the trace). -/
theorem C2_inplace_counterexample :
    addAugmenter (cropGetCommand ⟨0, 0, 1/2, 1⟩ ⟨1920, 1080, 10, 30⟩)
        "v.mp4" none "tmp123.mp4"
      = [FsOp.copyFile "v.mp4" "tmp123.mp4",
         FsOp.execTool (cropGetCommand ⟨0, 0, 1/2, 1⟩ ⟨1920, 1080, 10, 30⟩
           "tmp123.mp4" "v.mp4"),
         FsOp.removeFile "tmp123.mp4"]
    ∧ (cropGetCommand ⟨0, 0, 1/2, 1⟩ ⟨1920, 1080, 10, 30⟩
        "tmp123.mp4" "v.mp4").getLast? = some "v.mp4"
    ∧ claimedTempSwapB "tmp123.mp4" "v.mp4"
        (addAugmenter (cropGetCommand ⟨0, 0, 1/2, 1⟩ ⟨1920, 1080, 10, 30⟩)
          "v.mp4" none "tmp123.mp4") = false := by
  refine ⟨by simp [addAugmenter], rfl, ?_⟩
  simp [addAugmenter]
  rfl

/-- C2 amended: when no separate output path is given, `add_augmenter`
first copies the source to the private temporary path, then invokes the
tool reading from that copy while writing its output directly to the
original source path (the command's final argument is the output path, as
the second conjunct shows for the crop augmenter); the temporary is removed
afterwards. -/
theorem C2_inplace_behavior :
    (∀ (g : String → String → List String) (videoPath tmpName : String),
      addAugmenter g videoPath none tmpName
        = [FsOp.copyFile videoPath tmpName,
           FsOp.execTool (g tmpName videoPath),
           FsOp.removeFile tmpName])
    ∧ ∀ (s : CropSpec) (v : VideoInfo) (readPath outPath : String),
      (cropGetCommand s v readPath outPath).getLast? = some outPath := by
  constructor
  · intro g videoPath tmpName
    simp [addAugmenter]
  · intro s v readPath outPath
    simp [cropGetCommand, standardFilterFmt, outputFmt, inputFmt]

/-! ## C4: crop box computation -/

/-- C4 counterexample: for the valid crop `left=0, top=0, right=1/2,
bottom=1` on a 5×4 source, the code first truncates `w·(right-left) = 2.5`
to `2` and then rounds up to even, emitting width `2`; the claim's
round-up-to-even of `2.5` is `4`.  The last conjunct shows the emitted
filter string. -/
theorem C4_crop_counterexample :
    cropValid ⟨0, 0, 1/2, 1⟩
    ∧ cropWidth ⟨0, 0, 1/2, 1⟩ ⟨5, 4, 10, 30⟩ = 2
    ∧ (claimedCropDims ⟨0, 0, 1/2, 1⟩ 5 4).1 = 4
    ∧ (2 : ℤ) ≠ 4
    ∧ (cropGetCommand ⟨0, 0, 1/2, 1⟩ ⟨5, 4, 10, 30⟩ "in.mp4" "out.mp4").get? 4
      = some "crop=w=2:h=4:x=0:y=0" := by
  have hw : cropWidth ⟨0, 0, 1/2, 1⟩ ⟨5, 4, 10, 30⟩ = 2 := by
    show evenCeil (pyInt ((5 : ℚ) * (1/2 - 0))) = 2
    rw [pyInt_of_nonneg (by norm_num),
        show ⌊(5 : ℚ) * (1/2 - 0)⌋ = 2 by norm_num,
        evenCeil_eq_add_emod]
    decide
  have hh : cropHeight ⟨0, 0, 1/2, 1⟩ ⟨5, 4, 10, 30⟩ = 4 := by
    show evenCeil (pyInt ((4 : ℚ) * (1 - 0))) = 4
    rw [pyInt_of_nonneg (by norm_num),
        show ⌊(4 : ℚ) * (1 - 0)⌋ = 4 by norm_num,
        evenCeil_eq_add_emod]
    decide
  have hx : cropX ⟨0, 0, 1/2, 1⟩ ⟨5, 4, 10, 30⟩ = 0 := by
    show pyInt ((5 : ℚ) * 0) = 0
    rw [pyInt_of_nonneg (by norm_num)]
    norm_num
  have hy : cropY ⟨0, 0, 1/2, 1⟩ ⟨5, 4, 10, 30⟩ = 0 := by
    show pyInt ((4 : ℚ) * 0) = 0
    rw [pyInt_of_nonneg (by norm_num)]
    norm_num
  refine ⟨by norm_num [cropValid], hw, ?_, by norm_num, ?_⟩
  · show 2 * ⌈(5 : ℚ) * (1/2 - 0) / 2⌉ = 4
    rw [show ⌈(5 : ℚ) * (1/2 - 0) / 2⌉ = 2 by rw [Int.ceil_eq_iff]; norm_num]
    norm_num
  · simp only [cropGetCommand, standardFilterFmt, inputFmt, hw, hh, hx, hy]
    rfl

/-- C4 amended: the crop filter's output dimensions equal
round-up-to-even of the *truncated* pixel counts `⌊(right-left)·w⌋` and
`⌊(bottom-top)·h⌋` (the code applies Python `int` before the even
rounding), at offsets `⌊w·left⌋, ⌊h·top⌋`; both dimensions are even, and
the claim's particular scenario — crop(0.25, 0.25, 0.75, 0.75) on a
1920×1080 source — still yields exactly the box 960×540 at (480, 270). -/
theorem C4_crop_dims :
    (∀ (s : CropSpec) (v : VideoInfo) (p o : String), cropValid s →
      (cropWidth s v, cropHeight s v) = amendedCropDims s v.width v.height
      ∧ cropX s v = ⌊(v.width : ℚ) * s.left⌋
      ∧ cropY s v = ⌊(v.height : ℚ) * s.top⌋
      ∧ Even (cropWidth s v) ∧ Even (cropHeight s v)
      ∧ (cropGetCommand s v p o).get? 4
        = some ("crop=w=" ++ intStr (amendedCropDims s v.width v.height).1
            ++ ":h=" ++ intStr (amendedCropDims s v.width v.height).2
            ++ ":x=" ++ intStr ⌊(v.width : ℚ) * s.left⌋
            ++ ":y=" ++ intStr ⌊(v.height : ℚ) * s.top⌋))
    ∧ cropWidth ⟨1/4, 1/4, 3/4, 3/4⟩ ⟨1920, 1080, 10, 30⟩ = 960
    ∧ cropHeight ⟨1/4, 1/4, 3/4, 3/4⟩ ⟨1920, 1080, 10, 30⟩ = 540
    ∧ cropX ⟨1/4, 1/4, 3/4, 3/4⟩ ⟨1920, 1080, 10, 30⟩ = 480
    ∧ cropY ⟨1/4, 1/4, 3/4, 3/4⟩ ⟨1920, 1080, 10, 30⟩ = 270 := by
  have main : ∀ (s : CropSpec) (v : VideoInfo), cropValid s →
      (cropWidth s v, cropHeight s v) = amendedCropDims s v.width v.height
      ∧ cropX s v = ⌊(v.width : ℚ) * s.left⌋
      ∧ cropY s v = ⌊(v.height : ℚ) * s.top⌋ := by
    intro s v hv
    obtain ⟨⟨hl0, _⟩, ⟨ht0, _⟩, ⟨hlr, _⟩, ⟨htb, _⟩⟩ := hv
    have hwnn : (0 : ℚ) ≤ (v.width : ℚ) := by positivity
    have hhnn : (0 : ℚ) ≤ (v.height : ℚ) := by positivity
    refine ⟨?_, ?_, ?_⟩
    · rw [cropWidth, cropHeight, amendedCropDims,
        pyInt_of_nonneg (mul_nonneg hwnn (by linarith)),
        pyInt_of_nonneg (mul_nonneg hhnn (by linarith))]
      rfl
    · rw [cropX, pyInt_of_nonneg (mul_nonneg hwnn hl0)]
    · rw [cropY, pyInt_of_nonneg (mul_nonneg hhnn ht0)]
  constructor
  · intro s v p o hv
    obtain ⟨hwh, hx, hy⟩ := main s v hv
    have hw : cropWidth s v = (amendedCropDims s v.width v.height).1 := by
      rw [← hwh]
    have hh : cropHeight s v = (amendedCropDims s v.width v.height).2 := by
      rw [← hwh]
    refine ⟨hwh, hx, hy, ?_, ?_, ?_⟩
    · exact even_evenCeil _
    · exact even_evenCeil _
    · simp only [cropGetCommand, standardFilterFmt, inputFmt, hw, hh, hx, hy]
      rfl
  · have h14 : ⌊(1920 : ℚ) * (3/4 - 1/4)⌋ = 960 := by norm_num
    have h58 : ⌊(1080 : ℚ) * (3/4 - 1/4)⌋ = 540 := by norm_num
    refine ⟨?_, ?_, ?_, ?_⟩
    · show evenCeil (pyInt ((1920 : ℚ) * (3/4 - 1/4))) = 960
      rw [pyInt_of_nonneg (by norm_num), h14, evenCeil_eq_add_emod]
      decide
    · show evenCeil (pyInt ((1080 : ℚ) * (3/4 - 1/4))) = 540
      rw [pyInt_of_nonneg (by norm_num), h58, evenCeil_eq_add_emod]
      decide
    · show pyInt ((1920 : ℚ) * (1/4)) = 480
      rw [pyInt_of_nonneg (by norm_num)]
      norm_num
    · show pyInt ((1080 : ℚ) * (1/4)) = 270
      rw [pyInt_of_nonneg (by norm_num)]
      norm_num

/-- C4 witness: the amended general statement instantiated at the claim's
own scenario, with the hypothesis discharged and the emitted filter string
evaluated. -/
theorem C4_crop_dims_witness :
    cropValid ⟨1/4, 1/4, 3/4, 3/4⟩
    ∧ (cropGetCommand ⟨1/4, 1/4, 3/4, 3/4⟩ ⟨1920, 1080, 10, 30⟩
        "in.mp4" "out.mp4").get? 4 = some "crop=w=960:h=540:x=480:y=270" := by
  have hv : cropValid ⟨1/4, 1/4, 3/4, 3/4⟩ := by norm_num [cropValid]
  have h := C4_crop_dims
  have hg := (h.1 ⟨1/4, 1/4, 3/4, 3/4⟩ ⟨1920, 1080, 10, 30⟩ "in.mp4" "out.mp4" hv).2.2.2.2.2
  have hpair := (h.1 ⟨1/4, 1/4, 3/4, 3/4⟩ ⟨1920, 1080, 10, 30⟩ "in.mp4" "out.mp4" hv).1
  have hwv : (amendedCropDims ⟨1/4, 1/4, 3/4, 3/4⟩ 1920 1080).1 = 960 := by
    rw [show amendedCropDims ⟨1/4, 1/4, 3/4, 3/4⟩ 1920 1080
        = (cropWidth ⟨1/4, 1/4, 3/4, 3/4⟩ ⟨1920, 1080, 10, 30⟩,
           cropHeight ⟨1/4, 1/4, 3/4, 3/4⟩ ⟨1920, 1080, 10, 30⟩) from hpair.symm]
    exact h.2.1
  have hhv : (amendedCropDims ⟨1/4, 1/4, 3/4, 3/4⟩ 1920 1080).2 = 540 := by
    rw [show amendedCropDims ⟨1/4, 1/4, 3/4, 3/4⟩ 1920 1080
        = (cropWidth ⟨1/4, 1/4, 3/4, 3/4⟩ ⟨1920, 1080, 10, 30⟩,
           cropHeight ⟨1/4, 1/4, 3/4, 3/4⟩ ⟨1920, 1080, 10, 30⟩) from hpair.symm]
    exact h.2.2.1
  have hxv : ⌊(1920 : ℚ) * (1/4 : ℚ)⌋ = 480 := by norm_num
  have hyv : ⌊(1080 : ℚ) * (1/4 : ℚ)⌋ = 270 := by norm_num
  refine ⟨hv, ?_⟩
  rw [hg]
  norm_num [hwv, hhv, hxv, hyv]
  rfl

/-! ## C5: aspect-ratio dimension computation -/

/-- C5 counterexample: for a 193×193 source and ratio 1/4, the exact square
root of `area·r = 9312.25` is `96.5`, so the claim's
round-up-even(sqrt(area·r)) is `98`; the code truncates the square root to
`96` first (`int(sqrt(...))`) and emits width `96`. -/
theorem C5_aspect_counterexample :
    ((193 : ℚ) / 2) ^ 2 = (aspectArea ⟨193, 193, 10, 30⟩ : ℚ) * (1/4)
    ∧ aspectNewW (1/4) ⟨193, 193, 10, 30⟩ = 96
    ∧ 2 * ⌈((193 : ℚ) / 2) / 2⌉ = (98 : ℤ)
    ∧ (96 : ℤ) ≠ 98 := by
  have harea : (aspectArea ⟨193, 193, 10, 30⟩ : ℚ) = 37249 := by
    norm_num [aspectArea]
  have hsq : intSqrtQ ((aspectArea ⟨193, 193, 10, 30⟩ : ℚ) * (1/4)) = 96 := by
    have h1 := intSqrtQ_isFloorSqrt
      (q := (aspectArea ⟨193, 193, 10, 30⟩ : ℚ) * (1/4)) (by rw [harea]; norm_num)
    have h2 : IsFloorSqrt ((aspectArea ⟨193, 193, 10, 30⟩ : ℚ) * (1/4)) 96 := by
      rw [IsFloorSqrt, harea]
      norm_num
    exact isFloorSqrt_unique h1 h2
  refine ⟨by rw [harea]; norm_num, ?_, ?_, by norm_num⟩
  · rw [aspectNewW, hsq, evenCeil_eq_add_emod]
    decide
  · rw [show ⌈((193 : ℚ) / 2) / 2⌉ = 49 by rw [Int.ceil_eq_iff]; norm_num]
    norm_num

/-- C5 amended: for a positive ratio `r` with `area·r ≥ 1` (so that the
computed width is nonzero and the height division does not raise), the code
computes `new_w` as round-up-even of the *floor* of `√(area·r)` and `new_h`
as round-up-even of the floor of `area / new_w`; both are even. -/
theorem C5_aspect_dims :
    ∀ (r : ℚ) (v : VideoInfo), 0 < r → 1 ≤ (aspectArea v : ℚ) * r →
      ∃ (n : ℕ) (w h : ℤ),
        IsFloorSqrt ((aspectArea v : ℚ) * r) n
        ∧ aspectDims r v = some (w, h)
        ∧ w = 2 * ⌈(n : ℚ) / 2⌉
        ∧ h = 2 * ⌈(⌊(aspectArea v : ℚ) / (w : ℚ)⌋ : ℚ) / 2⌉
        ∧ Even w ∧ Even h := by
  intro r v hr harea
  have hq0 : (0 : ℚ) ≤ (aspectArea v : ℚ) * r := le_trans (by norm_num) harea
  have hfs := intSqrtQ_isFloorSqrt hq0
  set n := intSqrtQ ((aspectArea v : ℚ) * r) with hn
  have hn1 : 1 ≤ n := by
    by_contra hlt
    have hn0 : n = 0 := by omega
    have h2 := hfs.2
    rw [hn0] at h2
    norm_num at h2
    linarith
  have hWpos : 0 < aspectNewW r v := by
    rw [aspectNewW, ← hn, evenCeil_eq_add_emod]
    omega
  have hWne : aspectNewW r v ≠ 0 := ne_of_gt hWpos
  have hdiv_nonneg : (0 : ℚ) ≤ (aspectArea v : ℚ) / ((aspectNewW r v : ℤ) : ℚ) := by
    apply div_nonneg (by positivity)
    exact_mod_cast le_of_lt hWpos
  refine ⟨n, aspectNewW r v,
    evenCeil (pyInt ((aspectArea v : ℚ) / ((aspectNewW r v : ℤ) : ℚ))), hfs, ?_, ?_, ?_, ?_, ?_⟩
  · simp only [aspectDims, if_neg hWne]
  · rw [aspectNewW, ← hn]
    rfl
  · rw [pyInt_of_nonneg hdiv_nonneg]
    rfl
  · rw [aspectNewW, ← hn]
    exact even_evenCeil _
  · exact even_evenCeil _

/-- C5 witness: the amended statement instantiated at ratio 1 on a 4×4
source, with the dimension pair evaluated concretely. -/
theorem C5_aspect_dims_witness :
    (0 : ℚ) < 1
    ∧ 1 ≤ (aspectArea ⟨4, 4, 10, 30⟩ : ℚ) * 1
    ∧ (∃ (n : ℕ) (w h : ℤ),
        IsFloorSqrt ((aspectArea ⟨4, 4, 10, 30⟩ : ℚ) * 1) n
        ∧ aspectDims 1 ⟨4, 4, 10, 30⟩ = some (w, h)
        ∧ w = 2 * ⌈(n : ℚ) / 2⌉
        ∧ h = 2 * ⌈(⌊(aspectArea ⟨4, 4, 10, 30⟩ : ℚ) / (w : ℚ)⌋ : ℚ) / 2⌉
        ∧ Even w ∧ Even h)
    ∧ aspectDims 1 ⟨4, 4, 10, 30⟩ = some (4, 4) := by
  have harea : (aspectArea ⟨4, 4, 10, 30⟩ : ℚ) = 16 := by norm_num [aspectArea]
  have hsq : intSqrtQ ((aspectArea ⟨4, 4, 10, 30⟩ : ℚ) * 1) = 4 := by
    have h1 := intSqrtQ_isFloorSqrt
      (q := (aspectArea ⟨4, 4, 10, 30⟩ : ℚ) * 1) (by rw [harea]; norm_num)
    have h2 : IsFloorSqrt ((aspectArea ⟨4, 4, 10, 30⟩ : ℚ) * 1) 4 := by
      rw [IsFloorSqrt, harea]
      norm_num
    exact isFloorSqrt_unique h1 h2
  have hW : aspectNewW 1 ⟨4, 4, 10, 30⟩ = 4 := by
    rw [aspectNewW, hsq, evenCeil_eq_add_emod]
    decide
  have hdims : aspectDims 1 ⟨4, 4, 10, 30⟩ = some (4, 4) := by
    have hq4 : (aspectArea ⟨4, 4, 10, 30⟩ : ℚ) / ((aspectNewW 1 ⟨4, 4, 10, 30⟩ : ℤ) : ℚ)
        = 4 := by
      rw [hW, harea]
      norm_num
    simp only [aspectDims, if_neg (by rw [hW]; norm_num : ¬ aspectNewW 1 ⟨4, 4, 10, 30⟩ = 0)]
    rw [hq4, pyInt_of_nonneg (by norm_num),
      show ⌊(4 : ℚ)⌋ = 4 by norm_num, evenCeil_eq_add_emod, hW]
    decide
  exact ⟨by norm_num, by rw [harea]; norm_num,
    C5_aspect_dims 1 ⟨4, 4, 10, 30⟩ (by norm_num) (by rw [harea]; norm_num), hdims⟩

/-! ## C3: loop count and time truncation for stacking -/

/-- C3: the loop count is `⌈D/d⌉` — characterized as the least integer
number of loops whose total length covers the primary's duration — and in
each of hstack, vstack and fstack the generated argument list declares each
looped secondary input as `-stream_loop <n> -i <path>` immediately followed
by `-t <primary duration>`. -/
theorem C3_stack_loop_truncation :
    (∀ D d : ℚ, 0 < D → 0 < d →
      stackNLoops D d = ⌈D / d⌉
      ∧ D ≤ (stackNLoops D d : ℚ) * d
      ∧ ∀ k : ℤ, D ≤ (k : ℚ) * d → stackNLoops D d ≤ k)
    ∧ (∀ (s : HStackSpec) (v sv : VideoInfo) (aud saud : Bool) (p o : String),
        (hstackGetCommand s v aud sv saud p o).take 9
          = ["-y", "-i", p,
             "-stream_loop", intStr (stackNLoops v.duration sv.duration),
             "-i", s.secondVideoPath,
             "-t", ratStr v.duration])
    ∧ (∀ (s : VStackSpec) (v sv : VideoInfo) (aud saud : Bool) (p o : String),
        (vstackGetCommand s v aud sv saud p o).take 9
          = ["-y", "-i", p,
             "-stream_loop", intStr (stackNLoops v.duration sv.duration),
             "-i", s.secondVideoPath,
             "-t", ratStr v.duration])
    ∧ (∀ (s : FStackSpec) (v : VideoInfo) (aud : Bool)
        (sv1 sv2 sv3 : VideoInfo) (audios : List Bool)
        (p1 p2 p3 p o : String), s.videoPaths = [p1, p2, p3] →
        (fstackGetCommand s v aud [sv1, sv2, sv3] audios p o).take 21
          = ["-y", "-i", p,
             "-stream_loop", intStr (stackNLoops v.duration sv1.duration),
             "-i", p1, "-t", ratStr v.duration,
             "-stream_loop", intStr (stackNLoops v.duration sv2.duration),
             "-i", p2, "-t", ratStr v.duration,
             "-stream_loop", intStr (stackNLoops v.duration sv3.duration),
             "-i", p3, "-t", ratStr v.duration]) := by
  refine ⟨?_, ?_, ?_, ?_⟩
  · intro D d hD hd
    refine ⟨rfl, ?_, ?_⟩
    · have h := Int.le_ceil (D / d)
      rw [stackNLoops]
      exact (div_le_iff₀ hd).mp h
    · intro k hk
      rw [stackNLoops]
      exact Int.ceil_le.mpr ((div_le_iff₀ hd).mpr hk)
  · intro s v sv aud saud p o
    simp [hstackGetCommand, standardFilterFmt, inputFmt, List.take_succ_cons]
  · intro s v sv aud saud p o
    simp [vstackGetCommand, standardFilterFmt, inputFmt, List.take_succ_cons]
  · intro s v aud sv1 sv2 sv3 audios p1 p2 p3 p o hpaths
    simp [fstackGetCommand, standardFilterFmt, inputFmt, fstackInputDecls,
      hpaths, List.take_succ_cons]

/-- C3 witness: primary duration 10, secondary duration 3: the loop count
is `⌈10/3⌉ = 4` and the concrete hstack command starts with the looped
input declaration immediately followed by `-t 10`. -/
theorem C3_stack_loop_truncation_witness :
    (0 : ℚ) < 10 ∧ (0 : ℚ) < 3
    ∧ stackNLoops 10 3 = 4
    ∧ (10 : ℚ) ≤ (stackNLoops 10 3 : ℚ) * 3
    ∧ (hstackGetCommand ⟨"s.mp4", false, 0, false, false, "000000", 1920⟩
        ⟨1280, 720, 10, 30⟩ true ⟨640, 480, 3, 30⟩ true
        "in.mp4" "out.mp4").take 9
      = ["-y", "-i", "in.mp4", "-stream_loop", "4", "-i", "s.mp4",
         "-t", ratStr 10] := by
  have h := C3_stack_loop_truncation
  have hceil : (⌈(10 : ℚ) / 3⌉ : ℤ) = 4 := by
    rw [Int.ceil_eq_iff]; norm_num
  have hn : stackNLoops 10 3 = 4 := by
    rw [(h.1 10 3 (by norm_num) (by norm_num)).1, hceil]
  have htake := h.2.1 ⟨"s.mp4", false, 0, false, false, "000000", 1920⟩
    ⟨1280, 720, 10, 30⟩ ⟨640, 480, 3, 30⟩ true true "in.mp4" "out.mp4"
  refine ⟨by norm_num, by norm_num, hn, ?_, ?_⟩
  · rw [hn]
    norm_num
  · rw [htake]
    simp only [hn]
    rfl

/-! ## C8: frame-rate normalization -/

/-- C8 counterexample: `"30/0"` is of the form `num/denom` with numeric
parts, but the division raises a `ZeroDivisionError`, so `get_video_fps`
returns `0` through the exception handler rather than the (non-existent)
quotient — the claim's first case does not hold for a zero denominator. -/
theorem C8_fps_counterexample :
    "30/0".data.contains '/' = true
    ∧ splitOnChar '/' "30/0".data = ["30".data, "0".data]
    ∧ parseFloat "30".data = some 30
    ∧ parseFloat "0".data = some 0
    ∧ getVideoFpsRaw "30/0" = Except.error ()
    ∧ getVideoFps "30/0" = 0 := by
  refine ⟨by decide, by decide, ?_, ?_, ?_, ?_⟩
  · simp [parseFloat, splitOnChar, digitsVal?]
  · simp [parseFloat, splitOnChar, digitsVal?]
  · simp [getVideoFpsRaw, parseFloat, splitOnChar, digitsVal?]
  · simp [getVideoFps, getVideoFpsRaw, parseFloat, splitOnChar, digitsVal?]

/-- C8 amended: for every frame-rate string of the form `num/denom` with
numeric parts and a *nonzero* denominator, `get_video_fps` returns the
decimal quotient `num / denom`; every input on which the body raises —
malformed parts, a wrong number of parts, or a zero denominator — yields
`0` through the exception handler, and the function is total (it never
propagates an exception). -/
theorem C8_fps :
    (∀ (s : String) (x y : List Char) (a b : ℚ),
      s.data.contains '/' = true →
      splitOnChar '/' s.data = [x, y] →
      parseFloat x = some a → parseFloat y = some b → b ≠ 0 →
      getVideoFps s = a / b)
    ∧ (∀ s : String, getVideoFpsRaw s = Except.error () → getVideoFps s = 0) := by
  constructor
  · intro s x y a b hc hsplit hx hy hb
    simp only [getVideoFps, getVideoFpsRaw, hc, if_true, hsplit, hx, hy,
      if_neg hb]
  · intro s h
    simp only [getVideoFps, h]

/-- C8 witness: `"30000/1001"` normalizes to the decimal `30000/1001` (the
amended theorem applied with every hypothesis discharged concretely), and
the malformed `"abc"` yields `0`. -/
theorem C8_fps_witness :
    "30000/1001".data.contains '/' = true
    ∧ splitOnChar '/' "30000/1001".data = ["30000".data, "1001".data]
    ∧ parseFloat "30000".data = some 30000
    ∧ parseFloat "1001".data = some 1001
    ∧ (1001 : ℚ) ≠ 0
    ∧ getVideoFps "30000/1001" = 30000 / 1001
    ∧ getVideoFpsRaw "abc" = Except.error ()
    ∧ getVideoFps "abc" = 0 := by
  have h2 : splitOnChar '/' "30000/1001".data = ["30000".data, "1001".data] := by
    decide
  have h3 : parseFloat "30000".data = some 30000 := by
    simp [parseFloat, splitOnChar, digitsVal?]
  have h4 : parseFloat "1001".data = some 1001 := by
    simp [parseFloat, splitOnChar, digitsVal?]
  have h7 : getVideoFpsRaw "abc" = Except.error () := by
    simp [getVideoFpsRaw, parseFloat, splitOnChar, digitsVal?]
  exact ⟨by decide, h2, h3, h4, by norm_num,
    C8_fps.1 "30000/1001" "30000".data "1001".data 30000 1001
      (by decide) h2 h3 h4 (by norm_num),
    h7, C8_fps.2 "abc" h7⟩

/-! ## C9: silent-audio synthesis before concatenation -/

/-- C9: in the `concat` helper, every input lacking an audio stream gets
exactly one silent-audio synthesis into a fresh temporary (one synthesis
per audio-less input, each tied to such an input), inputs that already
carry audio are passed through unchanged, every synthesis precedes the
concat invocation, and the claim's 3-input scenario produces exactly one
synthesis, for input 2, before the concat call. -/
theorem C9_concat_silent_synthesis :
    (∀ (fresh : ℕ → String) (k : ℕ) (inputs : List (String × Bool)),
      (concatPrepare fresh k inputs).1.length
        = (inputs.filter fun pa => !pa.2).length
      ∧ (concatPrepare fresh k inputs).2.length = inputs.length
      ∧ (∀ q : String, (q, true) ∈ inputs → q ∈ (concatPrepare fresh k inputs).2)
      ∧ (∀ st ∈ (concatPrepare fresh k inputs).1,
          ∃ q t, st = ConcatStep.silentSynth q t ∧ (q, false) ∈ inputs))
    ∧ (∀ (fresh : ℕ → String) (inputs : List (String × Bool)) (srcIdx : ℕ),
        concatTrace fresh inputs srcIdx
          = (concatPrepare fresh 0 inputs).1
            ++ [ConcatStep.concatExec (concatPrepare fresh 0 inputs).2 srcIdx])
    ∧ concatTrace (fun k => "tmp" ++ natStr k)
        [("v1.mp4", true), ("v2.mp4", false), ("v3.mp4", true)] 0
      = [ConcatStep.silentSynth "v2.mp4" "tmp1",
         ConcatStep.concatExec ["v1.mp4", "tmp1", "v3.mp4"] 0] := by
  refine ⟨?_, ?_, by rfl⟩
  · intro fresh k inputs
    induction inputs generalizing k with
    | nil => simp [concatPrepare]
    | cons pa rest ih =>
      obtain ⟨p, a⟩ := pa
      obtain ⟨ih1, ih2, ih3, ih4⟩ := ih (k + 1)
      cases a
      · refine ⟨?_, ?_, ?_, ?_⟩
        · simpa [concatPrepare] using ih1
        · simpa [concatPrepare] using ih2
        · intro q hq
          rcases List.mem_cons.mp hq with heq | hmem
          · cases heq
          · simpa [concatPrepare] using List.mem_cons_of_mem _ (ih3 q hmem)
        · intro st hst
          rw [concatPrepare] at hst
          simp only [if_neg Bool.false_ne_true, List.mem_cons] at hst
          rcases hst with rfl | hst
          · exact ⟨p, fresh k, rfl, List.mem_cons_self _ _⟩
          · obtain ⟨q, t, hqt, hq⟩ := ih4 st hst
            exact ⟨q, t, hqt, List.mem_cons_of_mem _ hq⟩
      · refine ⟨?_, ?_, ?_, ?_⟩
        · simpa [concatPrepare] using ih1
        · simpa [concatPrepare] using ih2
        · intro q hq
          rcases List.mem_cons.mp hq with heq | hmem
          · obtain ⟨rfl, -⟩ := Prod.mk.injEq .. ▸ heq
            simp [concatPrepare]
          · simpa [concatPrepare] using List.mem_cons_of_mem _ (ih3 q hmem)
        · intro st hst
          simp only [concatPrepare, if_pos rfl] at hst
          obtain ⟨q, t, hqt, hq⟩ := ih4 st hst
          exact ⟨q, t, hqt, List.mem_cons_of_mem _ hq⟩
  · intro fresh inputs srcIdx
    rfl

/-- C9 witness: the general statement applied to the claim's 3-input
scenario — input 2 carries no audio, the prepared input list replaces it by
the fresh temporary, input 1 passes through unchanged, and the single
preparation step is a silent-audio synthesis for input 2. -/
theorem C9_concat_silent_synthesis_witness :
    ("v1.mp4", true) ∈ [("v1.mp4", true), ("v2.mp4", false), ("v3.mp4", true)]
    ∧ "v1.mp4" ∈ (concatPrepare (fun k => "tmp" ++ natStr k) 0
        [("v1.mp4", true), ("v2.mp4", false), ("v3.mp4", true)]).2
    ∧ (concatPrepare (fun k => "tmp" ++ natStr k) 0
        [("v1.mp4", true), ("v2.mp4", false), ("v3.mp4", true)]).2
      = ["v1.mp4", "tmp1", "v3.mp4"]
    ∧ (concatPrepare (fun k => "tmp" ++ natStr k) 0
        [("v1.mp4", true), ("v2.mp4", false), ("v3.mp4", true)]).1.length = 1 := by
  refine ⟨by decide, ?_, by rfl, ?_⟩
  · exact ((C9_concat_silent_synthesis.1 (fun k => "tmp" ++ natStr k) 0
      [("v1.mp4", true), ("v2.mp4", false), ("v3.mp4", true)]).2.2.1
      "v1.mp4" (by decide))
  · rw [(C9_concat_silent_synthesis.1 (fun k => "tmp" ++ natStr k) 0
      [("v1.mp4", true), ("v2.mp4", false), ("v3.mp4", true)]).1]
    rfl

/-! ## C10: even-dimension pre-pad of the primary in the stack wrappers -/

/-- C10: in each of the hstack, vstack and fstack wrappers, a probed
primary with an odd width or height is first copied through a zero-margin
pad (an even-dimension copy, the `-vf` string of the executed pad command
being a pure round-up-to-even pad with zero offsets) into the temporary
path, and the stack command is built against that copy; with both
dimensions even the original primary path is used directly. -/
theorem C10_stack_even_prepad :
    ∀ (v : VideoInfo) (p tmp : String) (out : Option String),
      ((v.width % 2 = 1 ∨ v.height % 2 = 1) →
        hstackWrapperTrace v p tmp out
          = [StackPrepStep.runPad (padGetCommand zeroPadSpec v p tmp),
             StackPrepStep.runStack tmp out]
        ∧ vstackWrapperTrace v p tmp out = hstackWrapperTrace v p tmp out
        ∧ fstackWrapperTrace v p tmp out = hstackWrapperTrace v p tmp out)
      ∧ ((v.width % 2 = 0 ∧ v.height % 2 = 0) →
        hstackWrapperTrace v p tmp out = [StackPrepStep.runStack p out]
        ∧ vstackWrapperTrace v p tmp out = hstackWrapperTrace v p tmp out
        ∧ fstackWrapperTrace v p tmp out = hstackWrapperTrace v p tmp out)
      ∧ (padGetCommand zeroPadSpec v p tmp).get? 4
        = some "pad=width=0+ceil(iw/2)*2:height=0+ceil(ih/2)*2:x=0:y=0:color=000000" := by
  intro v p tmp out
  have hz : ∀ n : ℕ, pyInt ((n : ℚ) * (0 : ℚ)) = 0 := by
    intro n
    rw [mul_zero, pyInt_of_nonneg le_rfl, Int.floor_zero]
  refine ⟨?_, ?_, ?_⟩
  · intro hodd
    refine ⟨?_, ?_, ?_⟩ <;>
      simp [hstackWrapperTrace, vstackWrapperTrace, fstackWrapperTrace, hodd]
  · intro heven
    have hnotodd : ¬ (v.width % 2 = 1 ∨ v.height % 2 = 1) := by omega
    refine ⟨?_, ?_, ?_⟩ <;>
      simp [hstackWrapperTrace, vstackWrapperTrace, fstackWrapperTrace, hnotodd]
  · simp only [padGetCommand, zeroPadSpec, standardFilterFmt, inputFmt, hz]
    rfl

/-- C10 witness: a 101×50 primary (odd width) is pre-padded into the
temporary and the stack runs against it; a 100×50 primary is used
directly. -/
theorem C10_stack_even_prepad_witness :
    ((101 : ℕ) % 2 = 1 ∨ (50 : ℕ) % 2 = 1)
    ∧ hstackWrapperTrace ⟨101, 50, 10, 30⟩ "v.mp4" "tmp.mp4" none
      = [StackPrepStep.runPad
          (padGetCommand zeroPadSpec ⟨101, 50, 10, 30⟩ "v.mp4" "tmp.mp4"),
         StackPrepStep.runStack "tmp.mp4" none]
    ∧ ((100 : ℕ) % 2 = 0 ∧ (50 : ℕ) % 2 = 0)
    ∧ hstackWrapperTrace ⟨100, 50, 10, 30⟩ "v.mp4" "tmp.mp4" none
      = [StackPrepStep.runStack "v.mp4" none]
    ∧ (padGetCommand zeroPadSpec ⟨101, 50, 10, 30⟩ "v.mp4" "tmp.mp4").get? 4
      = some "pad=width=0+ceil(iw/2)*2:height=0+ceil(ih/2)*2:x=0:y=0:color=000000" := by
  refine ⟨by decide, ?_, by decide, ?_, ?_⟩
  · exact ((C10_stack_even_prepad ⟨101, 50, 10, 30⟩ "v.mp4" "tmp.mp4" none).1
      (by decide)).1
  · exact ((C10_stack_even_prepad ⟨100, 50, 10, 30⟩ "v.mp4" "tmp.mp4" none).2.1
      (by decide)).1
  · exact (C10_stack_even_prepad ⟨101, 50, 10, 30⟩ "v.mp4" "tmp.mp4" none).2.2

end AugMe
